import Mathlib

/-!
Verification development for the civ6save-editing codec (src/index.js and the
second source file of the repository).  Byte buffers are modelled as `List Nat`
(each element a byte value), Node.js Buffer searches and slices are modelled
with JavaScript index semantics (negative indices, `-1` for a failed search),
and the zlib deflate/inflate collaborators are abstract function parameters,
with a toy conforming codec used for concrete evaluation.  The chunk length
`64 * 1024` of the source is written as the literal `65536` throughout.
-/

/-- `bin.readUInt8(i)`; reads in the claims below are always in bounds,
so the out-of-bounds default is never exercised. -/
def readU8 (bin : List Nat) (i : Nat) : Nat := bin.getD i 0

/-- `bin.readUInt16LE(i)`. -/
def readU16 (bin : List Nat) (i : Nat) : Nat :=
  readU8 bin i + 256 * readU8 bin (i + 1)

/-- `bin.readInt16LE(i)`. -/
def readI16 (bin : List Nat) (i : Nat) : Int :=
  let u := readU16 bin i
  if u < 32768 then (u : Int) else (u : Int) - 65536

/-- `bin.readInt8(i)`. -/
def readI8 (bin : List Nat) (i : Nat) : Int :=
  let u := readU8 bin i
  if u < 128 then (u : Int) else (u : Int) - 256

/-- `bin.readUInt32LE(i)`. -/
def readU32 (bin : List Nat) (i : Nat) : Nat :=
  readU8 bin i + 256 * readU8 bin (i + 1) + 65536 * readU8 bin (i + 2) +
    16777216 * readU8 bin (i + 3)

/-- `bin.readInt32LE(i)`. -/
def readI32 (bin : List Nat) (i : Nat) : Int :=
  let u := readU32 bin i
  if u < 2147483648 then (u : Int) else (u : Int) - 4294967296

/-- The ASCII bytes of the boundary anchor string MOD_TITLE. -/
def modTitle : List Nat := [77, 79, 68, 95, 84, 73, 84, 76, 69]

/-- The zlib stream-start marker bytes 78 9C. -/
def zlibStart : List Nat := [120, 156]

/-- The zlib sync-flush marker bytes 00 00 FF FF. -/
def syncMark : List Nat := [0, 0, 255, 255]

/-- The fixed 12-byte tile-table marker 0E000000 0F000000 06000000. -/
def tileMarker : List Nat := [14, 0, 0, 0, 15, 0, 0, 0, 6, 0, 0, 0]

/-- Whether the byte pattern `pat` occurs in `l` starting at index `i`. -/
def matchB (l pat : List Nat) (i : Nat) : Bool :=
  decide ((l.drop i).take pat.length = pat)

/-- First index at or after `s` where `pat` occurs in `l`. -/
def idxFrom (l pat : List Nat) (s : Nat) : Option Nat :=
  (List.range (l.length + 1)).find? (fun i => decide (s ≤ i) && matchB l pat i)

/-- Last index where `pat` occurs in `l`. -/
def lastIdx (l pat : List Nat) : Option Nat :=
  ((List.range (l.length + 1)).reverse).find? (fun i => matchB l pat i)

/-- Node `Buffer.indexOf` byteOffset semantics: a negative offset counts from
the end of the buffer and clamps at 0. -/
def startPos (len : Nat) (start : Int) : Nat :=
  if start < 0 then ((len : Int) + start).toNat else start.toNat

/-- `buf.indexOf(pat, start)` with JavaScript semantics, `-1` when absent. -/
def jsIndexOf (l pat : List Nat) (start : Int) : Int :=
  match idxFrom l pat (startPos l.length start) with
  | some i => (i : Int)
  | none => -1

/-- `buf.lastIndexOf(pat)` with JavaScript semantics, `-1` when absent. -/
def jsLastIndexOf (l pat : List Nat) : Int :=
  match lastIdx l pat with
  | some i => (i : Int)
  | none => -1

/-- `buf.slice(s, e)` with JavaScript semantics: negative indices count from
the end of the buffer, everything is clamped to the buffer, a crossed range
yields the empty buffer. -/
def jsSlice (l : List Nat) (s e : Int) : List Nat :=
  let n : Int := l.length
  let s1 : Nat := if s < 0 then (n + s).toNat else (min s n).toNat
  let e1 : Nat := if e < 0 then (n + e).toNat else (min e n).toNat
  (l.take e1).drop s1

/-- `buf.slice(s)` (one-argument form, end defaults to the length). -/
def jsSliceFrom (l : List Nat) (s : Int) : List Nat :=
  jsSlice l s (l.length : Int)

/-- `intbuf.writeInt32LE(n)` for `0 ≤ n < 2^31`: the four little-endian bytes. -/
def int32LE (n : Nat) : List Nat :=
  [n % 256, n / 256 % 256, n / 65536 % 256, n / 16777216 % 256]

/-- Fuelled version of the chunk-splitting loop of `decompress`
(`while (pos < data.length) { push(data.slice(pos, pos + chunkSize)); pos += chunkSize + 4 }`);
the fuel is only a termination device, `data.length` is always enough. -/
def dechunkAux : Nat → List Nat → List Nat
  | 0, _ => []
  | fuel + 1, data =>
    if data = [] then []
    else data.take 65536 ++ dechunkAux fuel (data.drop (65536 + 4))

/-- The chunk-splitting pass of `decompress`: take 64 KiB, drop the following
4 bytes, repeat, concatenate. -/
def dechunk (data : List Nat) : List Nat := dechunkAux data.length data

/-- Fuelled version of the tail of the re-chunking loop of `recompress`:
each chunk after the first is preceded by the 4-byte little-endian length of
that chunk (`slice.length` is `min 65536 rest.length`). -/
def frameAuxF : Nat → List Nat → List Nat
  | 0, _ => []
  | fuel + 1, rest =>
    if rest = [] then []
    else int32LE (min 65536 rest.length) ++ rest.take 65536 ++
      frameAuxF fuel (rest.drop 65536)

/-- Tail of the re-chunking loop (all chunks after the first). -/
def frameAux (rest : List Nat) : List Nat := frameAuxF rest.length rest

/-- The re-chunking loop of `recompress`: the first 64 KiB chunk is pushed
without a length prefix, every later chunk is prefixed with its own length. -/
def frame (c : List Nat) : List Nat :=
  c.take 65536 ++ frameAux (c.drop 65536)

/-- `decompress(savefile)` from src/index.js, with `zlib.inflateSync`
(in sync-flush mode) abstracted as the function parameter `inflate`;
`none` models an inflate failure. -/
def decompress (inflate : List Nat → Option (List Nat)) (savefile : List Nat) :
    Option (List Nat) :=
  let civsav := savefile
  let modindex := jsLastIndexOf civsav modTitle
  let bufstartindex := jsIndexOf civsav zlibStart modindex
  let bufendindex := jsLastIndexOf civsav syncMark
  let data := jsSlice civsav bufstartindex bufendindex
  inflate (dechunk data)

/-- `recompress(savefile, binfile)` from src/index.js, with
`zlib.deflateSync` (sync-flush mode) abstracted as `deflate`. -/
def recompress (deflate : List Nat → List Nat) (savefile binfile : List Nat) :
    List Nat :=
  let compressedBuffer := deflate binfile
  let finalBuffer := frame compressedBuffer
  let civsav := savefile
  let modindex := jsLastIndexOf civsav modTitle
  let bufstartindex := jsIndexOf civsav zlibStart modindex
  let bufendindex := jsLastIndexOf civsav syncMark + 4
  jsSlice civsav 0 bufstartindex ++ finalBuffer ++ jsSliceFrom civsav bufendindex

/-- `modify(savefile, callback)` from src/index.js (the name `modify` itself
is taken by the Lean core library). -/
def modifySave (inflate : List Nat → Option (List Nat)) (deflate : List Nat → List Nat)
    (savefile : List Nat) (callback : List Nat → List Nat) : Option (List Nat) :=
  (decompress inflate savefile).map fun bin => recompress deflate savefile (callback bin)

/-- A toy conforming compressor standing in for `zlib.deflateSync` with
sync-flush termination: zlib header, payload stored verbatim (as deflate does
for incompressible input), sync-flush marker. -/
def toyDeflate (b : List Nat) : List Nat := [120, 156] ++ b ++ syncMark

/-- The matching toy decompressor standing in for `zlib.inflateSync` with
`finishFlush: Z_SYNC_FLUSH`: it tolerates a missing final sync-flush marker
and inflates the empty stream to the empty blob, as that mode does. -/
def toyInflate (x : List Nat) : Option (List Nat) :=
  if x = [] then some []
  else if x.take 2 = [120, 156] then
    let y := x.drop 2
    if y.drop (y.length - 4) = syncMark ∧ 4 ≤ y.length then
      some (y.take (y.length - 4))
    else some y
  else none

/-- `src.copy(dst, at)` for Node buffers: copy `src` into `dst` starting at
offset `at_`, clamped at the end of `dst`; the length of `dst` never changes. -/
def bufCopy (src dst : List Nat) (at_ : Nat) : List Nat :=
  let k := min src.length (dst.length - at_)
  dst.take at_ ++ src.take k ++ dst.drop (at_ + k)

/-- The per-record trailing-buffer length computed by the `modifytiles` loop:
`num && (buflength += 24); (num2 >= 64) && (buflength += 17)` where `num` is
the 32-bit read at offset 51 and `num2` the byte at offset 49. -/
def mtBuflength (bin : List Nat) (mindex : Nat) : Nat :=
  let num2 := readU8 bin (mindex + 49)
  let num := readU32 bin (mindex + 51)
  (if num ≠ 0 then 24 else 0) + (if 64 ≤ num2 then 17 else 0)

/-- The `for (let i = 0; i < tiles; i++)` loop of `modifytiles`: slice the
record, apply the callback, copy the result back, advance the cursor. -/
def mtLoop (callback : List Nat → List Nat) : Nat → List Nat → Nat → List Nat
  | 0, bin, _ => bin
  | n + 1, bin, mindex =>
    let buflength := mtBuflength bin mindex
    let tilebuf := (bin.drop mindex).take (55 + buflength)
    let newtilebuf := callback tilebuf
    let bin2 := bufCopy newtilebuf bin mindex
    mtLoop callback n bin2 (mindex + 55 + buflength)

/-- The blob-level transform passed by `modifytiles` to `modify`: locate the
tile marker, read the 32-bit count at marker+12, run the mutation loop from
marker+16. -/
def modifytilesBin (callback : List Nat → List Nat) (bin : List Nat) : List Nat :=
  let mapstartindex := jsIndexOf bin tileMarker 0
  let tiles := readI32 bin (mapstartindex + 12).toNat
  mtLoop callback tiles.toNat bin (mapstartindex + 16).toNat

/-- `modifytiles(savefile, callback)` from src/index.js. -/
def modifytiles (inflate : List Nat → Option (List Nat))
    (deflate : List Nat → List Nat) (savefile : List Nat)
    (callback : List Nat → List Nat) : Option (List Nat) :=
  modifySave inflate deflate savefile (modifytilesBin callback)

/-- The `mapsizedata` lookup table of `savetomapjson`, keyed by the tile
count; an unrecognized count yields `none` (JavaScript `undefined`). -/
def mapsizedata (tiles : Int) : Option (Nat × Nat) :=
  if tiles = 1144 then some (44, 26)
  else if tiles = 2280 then some (60, 38)
  else if tiles = 3404 then some (74, 46)
  else if tiles = 4536 then some (84, 54)
  else if tiles = 5760 then some (96, 60)
  else if tiles = 6996 then some (106, 66)
  else none

/-- One decoded tile object of the src/index.js `savetomapjson` (the hex
string field `buffer` is kept as the raw byte list). -/
structure TileIdx where
  x : Nat
  y : Nat
  hex_location : Nat
  tile_length : Nat
  int16_1 : Nat
  int16_2 : Nat
  int16_3 : Nat
  int16_4 : Nat
  landmass : Nat
  terrain : Nat
  feature : Nat
  natural_wonder : Int
  continent : Nat
  number_of_units : Int
  resource_type : Nat
  resource_boolean : Int
  improvement : Nat
  improvement_player : Nat
  road_level : Nat
  road_level_2 : Nat
  appeal : Int
  river_e : Nat
  river_se : Nat
  river_sw : Nat
  river_count : Nat
  river_map : Nat
  cliff_map : Int
  flags1 : Nat
  flags2 : Nat
  flags3 : Nat
  flags4 : Nat
  flags5 : Nat
  flags6 : Nat
  flags7 : Nat
  buffer : List Nat
  deriving DecidableEq

/-- The `for` loop of the src/index.js `savetomapjson`.  `size` is
`mapsizedata[tiles]`; when it is `none`, the property access
`mapsizedata[tiles].x` inside the loop body throws, modelled as `none`. -/
def stmLoop (bin : List Nat) (size : Option (Nat × Nat)) :
    Nat → Nat → Nat → Option (List TileIdx)
  | 0, _, _ => some []
  | n + 1, i, mindex =>
    let num1 := readU8 bin (mindex + 49)
    let num2 := readU8 bin (mindex + 51)
    let buflength := (if num1 &&& 64 ≠ 0 then 17 else 0) +
      (if num2 &&& 1 ≠ 0 then 24 else 0) + (if num2 &&& 2 ≠ 0 then 44 else 0)
    match size with
    | none => none
    | some (w, _h) =>
      let t : TileIdx :=
        { x := i % w
          y := i / w
          hex_location := mindex
          tile_length := 55 + buflength
          int16_1 := readU16 bin mindex
          int16_2 := readU16 bin (mindex + 2)
          int16_3 := readU16 bin (mindex + 4)
          int16_4 := readU16 bin (mindex + 8)
          landmass := readU32 bin (mindex + 8)
          terrain := readU32 bin (mindex + 12)
          feature := readU32 bin (mindex + 16)
          natural_wonder := readI16 bin (mindex + 20)
          continent := readU32 bin (mindex + 22)
          number_of_units := readI8 bin (mindex + 26)
          resource_type := readU32 bin (mindex + 27)
          resource_boolean := readI16 bin (mindex + 31)
          improvement := readU32 bin (mindex + 33)
          improvement_player := readU8 bin (mindex + 37)
          road_level := readU8 bin (mindex + 38)
          road_level_2 := readU8 bin (mindex + 39)
          appeal := readI16 bin (mindex + 40)
          river_e := readU8 bin (mindex + 42)
          river_se := readU8 bin (mindex + 43)
          river_sw := readU8 bin (mindex + 44)
          river_count := readU8 bin (mindex + 45)
          river_map := readU8 bin (mindex + 46)
          cliff_map := readI8 bin (mindex + 47)
          flags1 := readU8 bin (mindex + 48)
          flags2 := readU8 bin (mindex + 49)
          flags3 := readU8 bin (mindex + 50)
          flags4 := readU8 bin (mindex + 51)
          flags5 := readU8 bin (mindex + 52)
          flags6 := readU8 bin (mindex + 53)
          flags7 := readU8 bin (mindex + 54)
          buffer := (bin.drop (mindex + 55)).take buflength }
      match stmLoop bin size n (i + 1) (mindex + 55 + buflength) with
      | none => none
      | some ts => some (t :: ts)

/-- The blob-level part of the src/index.js `savetomapjson` (everything after
the `decompress` call). -/
def savetomapjsonBin (bin : List Nat) : Option (List TileIdx) :=
  let mapstartindex := jsIndexOf bin tileMarker 0
  let tiles := readI32 bin (mapstartindex + 12).toNat
  stmLoop bin (mapsizedata tiles) tiles.toNat 0 (mapstartindex + 16).toNat

/-- `savetomapjson(savefile)` from src/index.js. -/
def savetomapjson (inflate : List Nat → Option (List Nat)) (savefile : List Nat) :
    Option (List TileIdx) :=
  (decompress inflate savefile).bind savetomapjsonBin

/-- One decoded tile object of the second source file (src/unnamed/part_000)
variant of `savetomapjson`, with the conditional sub-buffers; the empty-string
placeholders of absent sub-buffers are modelled as `none`. -/
structure TileV2 where
  x : Nat
  y : Nat
  hex_location : Nat
  int16_1 : Int
  int16_2 : Int
  int16_3 : Int
  int16_4 : Int
  landmass : Int
  terrain : Nat
  feature : Nat
  natural_wonder : Int
  continent : Nat
  number_of_units : Int
  resource : Nat
  resource_boolean : Int
  improvement : Nat
  improvement_owner : Int
  road_level : Int
  appeal : Int
  river_e : Int
  river_se : Int
  river_sw : Int
  river_count : Nat
  river_map : Nat
  cliff_map : Nat
  flags1 : Nat
  flags2 : Nat
  flags3 : Nat
  flags4 : Nat
  flags5 : Nat
  flags6 : Nat
  flags7 : Nat
  buffer1 : Option (List Nat)
  buffer1_flag : Option Nat
  buffer2 : Option (List Nat)
  buffer3 : Option (List Nat)
  buffer4 : Option (List Nat)
  tile_length : Nat
  deriving DecidableEq

/-- The loop body of the part_000 `savetomapjson`: decode the 55-byte header
at `mindex`, then follow the cursor through the conditional sub-buffers
(buffer1 of 24 bytes when `flags4 & 1`, buffer2 of 20 bytes when additionally
`buffer1_flag & 1`, buffer3 of 44 bytes when `flags4 & 2`, buffer4 of 17
bytes when `flags2 & 64`); `tile_length` is the total cursor advance. -/
def decodeTileV2 (bin : List Nat) (w i mindex : Nat) : TileV2 :=
  let flags2 := readU8 bin (mindex + 49)
  let flags4 := readU8 bin (mindex + 51)
  let m1 := mindex + 55
  let buffer1 := if flags4 &&& 1 ≠ 0 then some ((bin.drop m1).take 24) else none
  let buffer1_flag := if flags4 &&& 1 ≠ 0 then some (readU8 bin (m1 + 20)) else none
  let buffer2 :=
    if flags4 &&& 1 ≠ 0 then
      if readU8 bin (m1 + 20) &&& 1 ≠ 0 then some ((bin.drop (m1 + 24)).take 20)
      else none
    else none
  let m3 :=
    if flags4 &&& 1 ≠ 0 then
      if readU8 bin (m1 + 20) &&& 1 ≠ 0 then m1 + 24 + 20 else m1 + 24
    else m1
  let buffer3 := if flags4 &&& 2 ≠ 0 then some ((bin.drop m3).take 44) else none
  let m4 := if flags4 &&& 2 ≠ 0 then m3 + 44 else m3
  let buffer4 := if flags2 &&& 64 ≠ 0 then some ((bin.drop m4).take 17) else none
  let m5 := if flags2 &&& 64 ≠ 0 then m4 + 17 else m4
  { x := i % w
    y := i / w
    hex_location := mindex
    int16_1 := readI16 bin mindex
    int16_2 := readI16 bin (mindex + 2)
    int16_3 := readI16 bin (mindex + 4)
    int16_4 := readI16 bin (mindex + 8)
    landmass := readI32 bin (mindex + 8)
    terrain := readU32 bin (mindex + 12)
    feature := readU32 bin (mindex + 16)
    natural_wonder := readI16 bin (mindex + 20)
    continent := readU32 bin (mindex + 22)
    number_of_units := readI8 bin (mindex + 26)
    resource := readU32 bin (mindex + 27)
    resource_boolean := readI16 bin (mindex + 31)
    improvement := readU32 bin (mindex + 33)
    improvement_owner := readI8 bin (mindex + 37)
    road_level := readI16 bin (mindex + 38)
    appeal := readI16 bin (mindex + 40)
    river_e := readI8 bin (mindex + 42)
    river_se := readI8 bin (mindex + 43)
    river_sw := readI8 bin (mindex + 44)
    river_count := readU8 bin (mindex + 45)
    river_map := readU8 bin (mindex + 46)
    cliff_map := readU8 bin (mindex + 47)
    flags1 := readU8 bin (mindex + 48)
    flags2 := flags2
    flags3 := readU8 bin (mindex + 50)
    flags4 := flags4
    flags5 := readU8 bin (mindex + 52)
    flags6 := readU8 bin (mindex + 53)
    flags7 := readU8 bin (mindex + 54)
    buffer1 := buffer1
    buffer1_flag := buffer1_flag
    buffer2 := buffer2
    buffer3 := buffer3
    buffer4 := buffer4
    tile_length := m5 - mindex }

/-- The `for` loop of the part_000 `savetomapjson`; the cursor advances by
each record's `tile_length`. -/
def stmLoopV2 (bin : List Nat) (size : Option (Nat × Nat)) :
    Nat → Nat → Nat → Option (List TileV2)
  | 0, _, _ => some []
  | n + 1, i, mindex =>
    match size with
    | none => none
    | some (w, _h) =>
      let t := decodeTileV2 bin w i mindex
      match stmLoopV2 bin size n (i + 1) (mindex + t.tile_length) with
      | none => none
      | some ts => some (t :: ts)

/-- The blob-level part of the part_000 `savetomapjson`. -/
def savetomapjsonBinV2 (bin : List Nat) : Option (List TileV2) :=
  let mapstartindex := jsIndexOf bin tileMarker 0
  let tiles := readI32 bin (mapstartindex + 12).toNat
  stmLoopV2 bin (mapsizedata tiles) tiles.toNat 0 (mapstartindex + 16).toNat

/-- Modelled from the spec: the record-length rule of the data model,
`55 + (24 if flags4 bit 0) + (20 if the 24-byte sub-buffer is present and its
byte at relative offset 20 has bit 0 set) + (44 if flags4 bit 1) +
(17 if flags2 bit 6, mask 0x40)`, for the record starting at `mindex`. -/
def specRecordLength (bin : List Nat) (mindex : Nat) : Nat :=
  let flags2 := readU8 bin (mindex + 49)
  let flags4 := readU8 bin (mindex + 51)
  let a := if flags4 &&& 1 ≠ 0 then 24 else 0
  let b := if flags4 &&& 1 ≠ 0 ∧ readU8 bin (mindex + 55 + 20) &&& 1 ≠ 0 then 20 else 0
  let c := if flags4 &&& 2 ≠ 0 then 44 else 0
  let d := if flags2 &&& 64 ≠ 0 then 17 else 0
  55 + a + b + c + d

/-- The pair view used to state the grid-coordinate property of
`savetomapjson`. -/
def xyView (o : Option (List TileIdx)) : Option (List (Nat × Nat)) :=
  o.map fun ts => ts.map fun t => (t.x, t.y)

/-- The expected grid coordinates of `n` consecutive records starting at
linear index `i` in a map of row width `w`. -/
def xys (w n i : Nat) : List (Nat × Nat) :=
  (List.range n).map fun j => ((i + j) % w, (i + j) / w)

/-- A 16-byte container whose boundary markers are all located: the anchor at
index 0, the zlib start at 9, one payload byte, the sync-flush marker at 12. -/
def civ16 : List Nat := modTitle ++ [120, 156, 1, 0, 0, 255, 255]

/-- A callback that replaces a record by a same-length run of 7 bytes. -/
def sentinelCb : List Nat → List Nat := fun b => List.replicate b.length 7

/-- A callback that ignores its input and returns 60 bytes of 9, violating
the same-length expectation for a 55-byte record. -/
def growCb : List Nat → List Nat := fun _ => List.replicate 60 9

/-- A 55-byte tile header whose byte at offset 51 (`flags4`) is 2 and whose
other bytes are 0. -/
def cbin2 : List Nat := List.replicate 51 0 ++ [2, 0, 0, 0]

/-- An 80-byte blob with no tile marker whose bytes 11..14 read as the 32-bit
count 1. -/
def bin6 : List Nat := List.replicate 11 0 ++ [1, 0, 0, 0] ++ List.replicate 65 0

/-- An 80-byte blob with the tile marker at 0, count 1, and one all-zero
record. -/
def bin4 : List Nat := tileMarker ++ [1, 0, 0, 0] ++ List.replicate 64 0

/-- A blob with the tile marker at 0 and the unrecognized count 0. -/
def bin7z : List Nat := tileMarker ++ [0, 0, 0, 0]

/-- A blob with the tile marker at 0 and the unrecognized count 7. -/
def bin7u : List Nat := tileMarker ++ [7, 0, 0, 0] ++ List.replicate 64 0

/-- An all-zero blob used to exercise the coordinate derivation. -/
def bin7g : List Nat := List.replicate 80 0

/-- The container of the round-trip counterexample: markers located, payload
equal to the anchor string itself. -/
def civC1 : List Nat := modTitle ++ [120, 156, 1] ++ syncMark

/-- A 4-byte input containing no marker at all. -/
def civ5c : List Nat := [1, 2, 3, 4]

/-- A 2-byte input containing no marker at all. -/
def civ5w : List Nat := [5, 6]

lemma matchB_bound {l pat : List Nat} {i : Nat} (h : matchB l pat i = true)
    (hp : pat ≠ []) : i + pat.length ≤ l.length := by
  have h2 : (l.drop i).take pat.length = pat := by simpa [matchB] using h
  have h3 := congrArg List.length h2
  simp [List.length_take, List.length_drop] at h3
  have h4 : 0 < pat.length := List.length_pos.mpr hp
  omega

lemma idxFrom_eq_some {l pat : List Nat} {s k : Nat} (h : idxFrom l pat s = some k) :
    matchB l pat k = true ∧ s ≤ k := by
  unfold idxFrom at h
  have h2 := List.find?_some h
  simp only [Bool.and_eq_true, decide_eq_true_eq] at h2
  exact ⟨h2.2, h2.1⟩

lemma jsIndexOf_eq_coe {l pat : List Nat} {start : Int} {k : Nat}
    (h : jsIndexOf l pat start = (k : Int)) : matchB l pat k = true := by
  unfold jsIndexOf at h
  rcases h2 : idxFrom l pat (startPos l.length start) with _ | i <;> rw [h2] at h
  · change (-1 : Int) = (k : Int) at h
    exact absurd h (by omega)
  · change (i : Int) = (k : Int) at h
    have hik : i = k := by exact_mod_cast h
    exact hik ▸ (idxFrom_eq_some h2).1

lemma lastIdx_eq_some {l pat : List Nat} {k : Nat} (h : lastIdx l pat = some k) :
    matchB l pat k = true := by
  unfold lastIdx at h
  exact List.find?_some h

lemma jsLastIndexOf_eq_coe {l pat : List Nat} {k : Nat}
    (h : jsLastIndexOf l pat = (k : Int)) : matchB l pat k = true := by
  unfold jsLastIndexOf at h
  rcases h2 : lastIdx l pat with _ | i <;> rw [h2] at h
  · change (-1 : Int) = (k : Int) at h
    exact absurd h (by omega)
  · change (i : Int) = (k : Int) at h
    have hik : i = k := by exact_mod_cast h
    exact hik ▸ lastIdx_eq_some h2

lemma jsLastIndexOf_cases (l pat : List Nat) :
    jsLastIndexOf l pat = -1 ∨
      ∃ k : Nat, jsLastIndexOf l pat = (k : Int) ∧ matchB l pat k = true := by
  unfold jsLastIndexOf
  rcases h : lastIdx l pat with _ | i
  · left; rfl
  · right; exact ⟨i, rfl, lastIdx_eq_some h⟩

lemma lastIdx_none_of {l pat : List Nat}
    (h : ∀ i < l.length + 1, matchB l pat i = false) : lastIdx l pat = none := by
  unfold lastIdx
  apply List.find?_eq_none.mpr
  intro x hx
  rw [List.mem_reverse, List.mem_range] at hx
  simp [h x hx]

lemma jsLastIndexOf_none {l pat : List Nat}
    (h : ∀ i < l.length + 1, matchB l pat i = false) : jsLastIndexOf l pat = -1 := by
  unfold jsLastIndexOf
  rw [lastIdx_none_of h]

lemma jsSlice_coe (l : List Nat) (a b : Nat) :
    jsSlice l (a : Int) (b : Int) = (l.take b).drop a := by
  have ha : ¬((a : Int) < 0) := by omega
  have hb : ¬((b : Int) < 0) := by omega
  simp only [jsSlice, ha, hb, if_false, ite_false, if_neg, not_false_iff]
  have h1 : ((min (b : Int) (l.length : Int)).toNat) = min b l.length := by omega
  have h2 : ((min (a : Int) (l.length : Int)).toNat) = min a l.length := by omega
  rw [h1, h2]
  have h3 : l.take (min b l.length) = l.take b := by
    rcases le_total b l.length with hle | hle
    · rw [min_eq_left hle]
    · rw [min_eq_right hle, List.take_length, List.take_of_length_le hle]
  rw [h3]
  rcases le_total a l.length with hle | hle
  · rw [min_eq_left hle]
  · rw [min_eq_right hle]
    have e1 : (l.take b).drop l.length = [] :=
      List.drop_eq_nil_of_le (by rw [List.length_take]; omega)
    have e2 : (l.take b).drop a = [] :=
      List.drop_eq_nil_of_le (by rw [List.length_take]; omega)
    rw [e1, e2]

lemma dechunkAux_congr : ∀ f g (d : List Nat), d.length ≤ f → d.length ≤ g →
    dechunkAux f d = dechunkAux g d := by
  intro f
  induction f with
  | zero =>
    intro g d hf _
    have hd : d = [] := List.eq_nil_of_length_eq_zero (by omega)
    subst hd
    cases g <;> simp [dechunkAux]
  | succ f ih =>
    intro g d hf hg
    cases g with
    | zero =>
      have hd : d = [] := List.eq_nil_of_length_eq_zero (by omega)
      subst hd
      simp [dechunkAux]
    | succ g =>
      by_cases hd : d = []
      · simp [dechunkAux, hd]
      · have h1 : 0 < d.length := List.length_pos.mpr hd
        simp only [dechunkAux, if_neg hd]
        congr 1
        apply ih
        · rw [List.length_drop]
          omega
        · rw [List.length_drop]
          omega

lemma dechunkAux_eq_dechunk {f : Nat} {d : List Nat} (h : d.length ≤ f) :
    dechunkAux f d = dechunk d :=
  dechunkAux_congr f d.length d h le_rfl

lemma dechunk_nil : dechunk [] = [] := rfl

lemma dechunk_eq {d : List Nat} (hd : d ≠ []) :
    dechunk d = d.take 65536 ++ dechunk (d.drop (65536 + 4)) := by
  have h1 : 0 < d.length := List.length_pos.mpr hd
  conv_lhs => rw [dechunk]
  rw [show d.length = (d.length - 1) + 1 by omega]
  simp only [dechunkAux, if_neg hd]
  congr 1
  apply dechunkAux_eq_dechunk
  rw [List.length_drop]
  omega

lemma frameAuxF_congr : ∀ f g (r : List Nat), r.length ≤ f → r.length ≤ g →
    frameAuxF f r = frameAuxF g r := by
  intro f
  induction f with
  | zero =>
    intro g r hf _
    have hr : r = [] := List.eq_nil_of_length_eq_zero (by omega)
    subst hr
    cases g <;> simp [frameAuxF]
  | succ f ih =>
    intro g r hf hg
    cases g with
    | zero =>
      have hr : r = [] := List.eq_nil_of_length_eq_zero (by omega)
      subst hr
      simp [frameAuxF]
    | succ g =>
      by_cases hr : r = []
      · simp [frameAuxF, hr]
      · have h1 : 0 < r.length := List.length_pos.mpr hr
        simp only [frameAuxF, if_neg hr]
        refine congrArg _ ?_
        apply ih
        · rw [List.length_drop]
          omega
        · rw [List.length_drop]
          omega

lemma frameAuxF_eq_frameAux {f : Nat} {r : List Nat} (h : r.length ≤ f) :
    frameAuxF f r = frameAux r :=
  frameAuxF_congr f r.length r h le_rfl

lemma frameAux_nil : frameAux [] = [] := rfl

lemma frameAux_eq {r : List Nat} (hr : r ≠ []) :
    frameAux r = int32LE (min 65536 r.length) ++ r.take 65536 ++
      frameAux (r.drop 65536) := by
  have h1 : 0 < r.length := List.length_pos.mpr hr
  have h2 : r.length = (r.length - 1) + 1 := by omega
  conv_lhs => rw [frameAux, h2]
  simp only [frameAuxF, if_neg hr]
  refine congrArg _ ?_
  apply frameAuxF_eq_frameAux
  rw [List.length_drop]
  omega

lemma int32LE_length (n : Nat) : (int32LE n).length = 4 := rfl

lemma dechunk_short {x : List Nat} (hx : x.length ≤ 65536) : dechunk x = x := by
  by_cases h : x = []
  · simp [h, dechunk_nil]
  · rw [dechunk_eq h]
    have h2 : x.drop (65536 + 4) = [] := List.drop_eq_nil_of_le (by omega)
    rw [h2, dechunk_nil, List.append_nil, List.take_of_length_le hx]

lemma frame_length_ge {c : List Nat} (h : 4 ≤ c.length) : 4 ≤ (frame c).length := by
  unfold frame
  rw [List.length_append, List.length_take]
  omega

lemma dechunk_frame_take_aux : ∀ n (c : List Nat), c.length ≤ n → 4 ≤ c.length →
    (c.length % 65536 = 0 ∨ 4 ≤ c.length % 65536) →
    dechunk ((frame c).take ((frame c).length - 4)) = c.take (c.length - 4) := by
  intro n
  induction n with
  | zero =>
    intro c hc h4 _
    exact absurd h4 (by omega)
  | succ n ih =>
    intro c hc h4 hal
    by_cases hsmall : c.length ≤ 65536
    · have hdrop : c.drop 65536 = [] := List.drop_eq_nil_of_le (by omega)
      have hframe : frame c = c := by
        unfold frame
        rw [hdrop, frameAux_nil, List.append_nil, List.take_of_length_le hsmall]
      rw [hframe]
      exact dechunk_short (by rw [List.length_take]; omega)
    · push_neg at hsmall
      have hrlen : (c.drop 65536).length = c.length - 65536 := by
        rw [List.length_drop]
      have hrne : c.drop 65536 ≠ [] :=
        List.ne_nil_of_length_pos (by rw [hrlen]; omega)
      have hr4 : 4 ≤ (c.drop 65536).length := by
        rw [hrlen]
        rcases hal with h | h <;> omega
      have hframe : frame c = c.take 65536 ++
          (int32LE (min 65536 (c.drop 65536).length) ++ frame (c.drop 65536)) := by
        conv_lhs => rw [frame, frameAux_eq hrne]
        rw [frame]
        simp [List.append_assoc]
      have hALen : (c.take 65536).length = 65536 := by
        rw [List.length_take]
        omega
      have hFr4 : 4 ≤ (frame (c.drop 65536)).length := frame_length_ge hr4
      have hPLen : (int32LE (min 65536 (c.drop 65536).length)).length = 4 :=
        int32LE_length _
      have hflen : (frame c).length = 65536 + (4 + (frame (c.drop 65536)).length) := by
        rw [hframe, List.length_append, List.length_append, hALen, hPLen]
      have htake : (frame c).take ((frame c).length - 4) =
          c.take 65536 ++ (int32LE (min 65536 (c.drop 65536).length) ++
            (frame (c.drop 65536)).take ((frame (c.drop 65536)).length - 4)) := by
        rw [hflen, hframe, List.take_append_eq_append_take, hALen]
        have e1 : (c.take 65536).take (65536 + (4 + (frame (c.drop 65536)).length) - 4) =
            c.take 65536 :=
          List.take_of_length_le (by rw [hALen]; omega)
        rw [e1]
        refine congrArg _ ?_
        have e2 : 65536 + (4 + (frame (c.drop 65536)).length) - 4 - 65536 =
            (frame (c.drop 65536)).length := by omega
        rw [e2, List.take_append_eq_append_take, hPLen]
        have e3 : (int32LE (min 65536 (c.drop 65536).length)).take
            (frame (c.drop 65536)).length = int32LE (min 65536 (c.drop 65536).length) :=
          List.take_of_length_le (by rw [hPLen]; omega)
        rw [e3]
      rw [htake]
      have hne : c.take 65536 ++ (int32LE (min 65536 (c.drop 65536).length) ++
          (frame (c.drop 65536)).take ((frame (c.drop 65536)).length - 4)) ≠ [] := by
        apply List.ne_nil_of_length_pos
        rw [List.length_append, hALen]
        omega
      rw [dechunk_eq hne]
      have e4 : (c.take 65536 ++ (int32LE (min 65536 (c.drop 65536).length) ++
          (frame (c.drop 65536)).take ((frame (c.drop 65536)).length - 4))).take 65536 =
          c.take 65536 := by
        rw [List.take_append_eq_append_take, hALen, Nat.sub_self, List.take_zero,
          List.append_nil]
        exact List.take_of_length_le (by rw [hALen])
      have e5 : (c.take 65536 ++ (int32LE (min 65536 (c.drop 65536).length) ++
          (frame (c.drop 65536)).take ((frame (c.drop 65536)).length - 4))).drop
            (65536 + 4) =
          (frame (c.drop 65536)).take ((frame (c.drop 65536)).length - 4) := by
        rw [List.drop_append_eq_append_drop, hALen]
        have e6 : (c.take 65536).drop (65536 + 4) = [] :=
          List.drop_eq_nil_of_le (by rw [hALen]; omega)
        rw [e6, List.nil_append]
        have e7 : 65536 + 4 - 65536 = 4 := by omega
        rw [e7, List.drop_append_eq_append_drop, hPLen]
        have e8 : (int32LE (min 65536 (c.drop 65536).length)).drop 4 = [] :=
          List.drop_eq_nil_of_le (by rw [hPLen])
        rw [e8, Nat.sub_self, List.drop_zero, List.nil_append]
      rw [e4, e5]
      have hih : dechunk ((frame (c.drop 65536)).take
            ((frame (c.drop 65536)).length - 4)) =
          (c.drop 65536).take ((c.drop 65536).length - 4) := by
        apply ih
        · rw [hrlen]; omega
        · exact hr4
        · rw [hrlen]
          rcases hal with h | h <;> omega
      rw [hih, hrlen]
      have e9 : c.length - 4 = 65536 + (c.length - 65536 - 4) := by
        rcases hal with h | h <;> omega
      rw [e9, List.take_add]

lemma dechunk_frame_take (c : List Nat) (h4 : 4 ≤ c.length)
    (hal : c.length % 65536 = 0 ∨ 4 ≤ c.length % 65536) :
    dechunk ((frame c).take ((frame c).length - 4)) = c.take (c.length - 4) :=
  dechunk_frame_take_aux c.length c le_rfl h4 hal

lemma bufCopy_length (src dst : List Nat) (a : Nat) :
    (bufCopy src dst a).length = dst.length := by
  simp only [bufCopy, List.length_append, List.length_take, List.length_drop]
  omega

lemma frameAux_small {r : List Nat} (hr : r ≠ []) (hle : r.length ≤ 65536) :
    frameAux r = int32LE r.length ++ r := by
  rw [frameAux_eq hr, min_eq_right hle, List.take_of_length_le hle,
    List.drop_eq_nil_of_le hle, frameAux_nil, List.append_nil]

lemma jsSlice_neg_one (l : List Nat) (e : Int) (he : e ≤ (l.length : Int) - 1) :
    jsSlice l (-1) e = [] := by
  simp only [jsSlice]
  apply List.drop_eq_nil_of_le
  rw [List.length_take]
  split_ifs <;> omega

lemma xys_succ (w n i : Nat) : xys w (n + 1) i = (i % w, i / w) :: xys w n (i + 1) := by
  unfold xys
  rw [List.range_succ_eq_map, List.map_cons, List.map_map]
  simp only [Nat.add_zero]
  refine congrArg _ ?_
  apply List.map_congr_left
  intro j _
  simp only [Function.comp_apply]
  have hj : i + (j + 1) = i + 1 + j := by omega
  rw [hj]

lemma decodeTileV2_buffer1 (bin : List Nat) (w i m : Nat) :
    (decodeTileV2 bin w i m).buffer1 =
      (if readU8 bin (m + 51) &&& 1 ≠ 0 then some ((bin.drop (m + 55)).take 24)
       else none) := rfl

lemma decodeTileV2_buffer2 (bin : List Nat) (w i m : Nat) :
    (decodeTileV2 bin w i m).buffer2 =
      (if readU8 bin (m + 51) &&& 1 ≠ 0 then
        (if readU8 bin (m + 55 + 20) &&& 1 ≠ 0 then
          some ((bin.drop (m + 55 + 24)).take 20)
         else none)
       else none) := rfl

lemma decodeTileV2_buffer3 (bin : List Nat) (w i m : Nat) :
    (decodeTileV2 bin w i m).buffer3 =
      (if readU8 bin (m + 51) &&& 2 ≠ 0 then
        some ((bin.drop (if readU8 bin (m + 51) &&& 1 ≠ 0 then
            (if readU8 bin (m + 55 + 20) &&& 1 ≠ 0 then m + 55 + 24 + 20
             else m + 55 + 24)
          else m + 55)).take 44)
       else none) := rfl

lemma decodeTileV2_buffer4 (bin : List Nat) (w i m : Nat) :
    (decodeTileV2 bin w i m).buffer4 =
      (if readU8 bin (m + 49) &&& 64 ≠ 0 then
        some ((bin.drop (if readU8 bin (m + 51) &&& 2 ≠ 0 then
            (if readU8 bin (m + 51) &&& 1 ≠ 0 then
              (if readU8 bin (m + 55 + 20) &&& 1 ≠ 0 then m + 55 + 24 + 20
               else m + 55 + 24)
             else m + 55) + 44
          else
            (if readU8 bin (m + 51) &&& 1 ≠ 0 then
              (if readU8 bin (m + 55 + 20) &&& 1 ≠ 0 then m + 55 + 24 + 20
               else m + 55 + 24)
             else m + 55))).take 17)
       else none) := rfl

lemma decodeTileV2_tile_length (bin : List Nat) (w i m : Nat) :
    (decodeTileV2 bin w i m).tile_length =
      (if readU8 bin (m + 49) &&& 64 ≠ 0 then
        (if readU8 bin (m + 51) &&& 2 ≠ 0 then
          (if readU8 bin (m + 51) &&& 1 ≠ 0 then
            (if readU8 bin (m + 55 + 20) &&& 1 ≠ 0 then m + 55 + 24 + 20
             else m + 55 + 24)
           else m + 55) + 44
         else
          (if readU8 bin (m + 51) &&& 1 ≠ 0 then
            (if readU8 bin (m + 55 + 20) &&& 1 ≠ 0 then m + 55 + 24 + 20
             else m + 55 + 24)
           else m + 55)) + 17
       else
        (if readU8 bin (m + 51) &&& 2 ≠ 0 then
          (if readU8 bin (m + 51) &&& 1 ≠ 0 then
            (if readU8 bin (m + 55 + 20) &&& 1 ≠ 0 then m + 55 + 24 + 20
             else m + 55 + 24)
           else m + 55) + 44
         else
          (if readU8 bin (m + 51) &&& 1 ≠ 0 then
            (if readU8 bin (m + 55 + 20) &&& 1 ≠ 0 then m + 55 + 24 + 20
             else m + 55 + 24)
           else m + 55))) - m := rfl

lemma iteNested20 {α : Type} (A B : Prop) [Decidable A] [Decidable B] (x : α) :
    (if A then (if B then some x else none) else none) =
      (if A ∧ B then some x else none) := by
  by_cases hA : A <;> by_cases hB : B <;> simp [hA, hB]

lemma v2_m3 (A B : Prop) [Decidable A] [Decidable B] (m : Nat) :
    (if A then (if B then m + 55 + 24 + 20 else m + 55 + 24) else m + 55) =
      m + 55 + (if A then 24 else 0) + (if A ∧ B then 20 else 0) := by
  by_cases hA : A <;> by_cases hB : B <;> simp [hA, hB]

lemma v2_m4 (A B C : Prop) [Decidable A] [Decidable B] [Decidable C] (m : Nat) :
    (if C then (if A then (if B then m + 55 + 24 + 20 else m + 55 + 24) else m + 55) + 44
     else (if A then (if B then m + 55 + 24 + 20 else m + 55 + 24) else m + 55)) =
      m + 55 + (if A then 24 else 0) + (if A ∧ B then 20 else 0) +
        (if C then 44 else 0) := by
  by_cases hA : A <;> by_cases hB : B <;> by_cases hC : C <;> simp [hA, hB, hC]

lemma v2_len (A B C D : Prop) [Decidable A] [Decidable B] [Decidable C] [Decidable D]
    (m : Nat) :
    (if D then
      (if C then (if A then (if B then m + 55 + 24 + 20 else m + 55 + 24) else m + 55) + 44
       else (if A then (if B then m + 55 + 24 + 20 else m + 55 + 24) else m + 55)) + 17
     else
      (if C then (if A then (if B then m + 55 + 24 + 20 else m + 55 + 24) else m + 55) + 44
       else (if A then (if B then m + 55 + 24 + 20 else m + 55 + 24) else m + 55))) - m =
      55 + (if A then 24 else 0) + (if A ∧ B then 20 else 0) + (if C then 44 else 0) +
        (if D then 17 else 0) := by
  by_cases hA : A <;> by_cases hB : B <;> by_cases hC : C <;> by_cases hD : D <;>
    simp [hA, hB, hC, hD] <;> omega

lemma stmLoop_xy (bin : List Nat) (w h : Nat) : ∀ n i m : Nat,
    xyView (stmLoop bin (some (w, h)) n i m) = some (xys w n i) := by
  intro n
  induction n with
  | zero =>
    intro i m
    simp [stmLoop, xyView, xys]
  | succ n ih =>
    intro i m
    simp only [stmLoop]
    have hmap := ih (i + 1) (m + 55 +
      ((if readU8 bin (m + 49) &&& 64 ≠ 0 then 17 else 0) +
        (if readU8 bin (m + 51) &&& 1 ≠ 0 then 24 else 0) +
        (if readU8 bin (m + 51) &&& 2 ≠ 0 then 44 else 0)))
    simp only [xyView, Option.map_eq_some'] at hmap
    obtain ⟨ts, hts, hmapeq⟩ := hmap
    rw [hts]
    simp only [xyView, Option.map_some', List.map_cons, Option.some.injEq]
    rw [xys_succ]
    exact congrArg₂ _ rfl hmapeq

/-- C8: chunk framing of `recompress`.  A compressed span of exactly 64 KiB
becomes a single chunk with no length prefix; a span of 64 KiB + 10 bytes
becomes an unprefixed 64 KiB chunk, a 4-byte little-endian length field with
value 10, and the final 10-byte chunk; in general (shown here for spans of at
most two chunks) the first chunk is unprefixed and the following chunk is
prefixed by its own 4-byte little-endian length. -/
theorem c8_chunk_framing (l : List Nat) :
    (l.length = 65536 → frame l = l) ∧
    (l.length = 65546 → frame l = l.take 65536 ++ [10, 0, 0, 0] ++ l.drop 65536) ∧
    (65536 < l.length → l.length ≤ 131072 →
      frame l = l.take 65536 ++ int32LE (l.length - 65536) ++ l.drop 65536) := by
  have hgen : 65536 < l.length → l.length ≤ 131072 →
      frame l = l.take 65536 ++ int32LE (l.length - 65536) ++ l.drop 65536 := by
    intro h1 h2
    have hrlen : (l.drop 65536).length = l.length - 65536 := by rw [List.length_drop]
    have hrne : l.drop 65536 ≠ [] := List.ne_nil_of_length_pos (by rw [hrlen]; omega)
    unfold frame
    rw [frameAux_small hrne (by rw [hrlen]; omega), hrlen, ← List.append_assoc]
  refine ⟨?_, ?_, hgen⟩
  · intro h
    unfold frame
    rw [List.drop_eq_nil_of_le (by omega), frameAux_nil, List.append_nil,
      List.take_of_length_le (by omega)]
  · intro h
    rw [hgen (by omega) (by omega), h]
    rfl

/-- Witness for C8 at concrete spans of length 64 KiB and 64 KiB + 10. -/
theorem c8_witness :
    frame (List.replicate 65536 0) = List.replicate 65536 0 ∧
    frame (List.replicate 65546 0) = (List.replicate 65546 0).take 65536 ++
      [10, 0, 0, 0] ++ (List.replicate 65546 0).drop 65536 :=
  ⟨(c8_chunk_framing _).1 (by rw [List.length_replicate]),
   (c8_chunk_framing _).2.1 (by rw [List.length_replicate])⟩

/-- Counterexample for C2: for the header with flags4 = 2 the mutation pass
of `modifytiles` computes a record length of 79 (truthy 32-bit word at offset
51 adds 24), while the flag rules of the data model give 99 (flags4 bit 1
adds 44), so the claimed equality fails at this record. -/
theorem c2_counterexample :
    55 + mtBuflength cbin2 0 = 79 ∧ specRecordLength cbin2 0 = 99 ∧
    55 + mtBuflength cbin2 0 ≠ specRecordLength cbin2 0 := by decide

/-- C2 (amended): during the in-place tile mutation pass each record is
sliced and the cursor advanced using the length
`55 + (24 if the 32-bit little-endian word at header offset 51 is nonzero) +
(17 if the header byte at offset 49 is at least 64)`; no 44- or 20-byte
component is ever added, unlike the flag rules of the data model. -/
theorem c2_record_length (cb : List Nat → List Nat) (n : Nat) (bin : List Nat)
    (m : Nat) :
    mtLoop cb (n + 1) bin m =
      mtLoop cb n
        (bufCopy (cb ((bin.drop m).take
          (55 + ((if readU32 bin (m + 51) ≠ 0 then 24 else 0) +
            (if 64 ≤ readU8 bin (m + 49) then 17 else 0))))) bin m)
        (m + 55 + ((if readU32 bin (m + 51) ≠ 0 then 24 else 0) +
          (if 64 ≤ readU8 bin (m + 49) then 17 else 0))) := rfl

/-- C10: the two record-length computations present in the sources (the
truthy/threshold one of `modifytiles` and the bitmask one of the part_000
`savetomapjson`) are not extensionally equal: on the header with flags4 = 2
they give 79 and 99. -/
theorem c10_implementations_differ :
    ∃ bin : List Nat, (decodeTileV2 bin 1 0 0).tile_length ≠ 55 + mtBuflength bin 0 :=
  ⟨cbin2, by decide⟩

/-- Counterexample for C4: a mutator returning 60 bytes for a 55-byte record
does not make the operation fail; the 60 bytes are copied back into the blob,
overwriting the byte just past the record (offset 71 = 16 + 55). -/
theorem c4_counterexample :
    (modifytilesBin growCb bin4).length = bin4.length ∧
    (modifytilesBin growCb bin4).getD 16 0 = 9 ∧
    (modifytilesBin growCb bin4).getD 71 0 = 9 ∧ bin4.getD 71 0 = 0 := by decide

/-- C4 (amended): the mutation pass performs no length check on the buffer
returned by the mutator; the result is copied back clamped at the end of the
blob and the pass never fails, so the blob keeps its length for every
callback. -/
theorem c4_length_invariant (cb : List Nat → List Nat) (n : Nat) (bin : List Nat)
    (m : Nat) : (mtLoop cb n bin m).length = bin.length := by
  induction n generalizing bin m with
  | zero => rfl
  | succ n ih =>
    simp only [mtLoop]
    rw [ih, bufCopy_length]

/-- Counterexample for C6: an 80-byte blob without the tile-table marker is
not rejected; the count is read at offset 11 (value 1 here) and the mutation
loop runs, changing the blob. -/
theorem c6_counterexample :
    jsIndexOf bin6 tileMarker 0 = -1 ∧ modifytilesBin sentinelCb bin6 ≠ bin6 := by
  decide

/-- C6 (amended): when the blob contains no tile-table marker, no failure is
signalled: `indexOf` yields -1, the count is read at byte offset 11, and the
mutation loop proceeds from offset 15 on whatever bytes are there. -/
theorem c6_no_marker_proceeds (cb : List Nat → List Nat) (bin : List Nat)
    (h : ∀ i < bin.length + 1, matchB bin tileMarker i = false) :
    modifytilesBin cb bin = mtLoop cb (readI32 bin 11).toNat bin 15 := by
  have hidx : jsIndexOf bin tileMarker 0 = -1 := by
    unfold jsIndexOf
    have hnone : idxFrom bin tileMarker (startPos bin.length 0) = none := by
      unfold idxFrom
      apply List.find?_eq_none.mpr
      intro x hx
      rw [List.mem_range] at hx
      simp [h x hx]
    rw [hnone]
  unfold modifytilesBin
  rw [hidx]
  rfl

/-- Witness for C6 at the concrete marker-free blob. -/
theorem c6_witness :
    modifytilesBin sentinelCb bin6 = mtLoop sentinelCb (readI32 bin6 11).toNat bin6 15 :=
  c6_no_marker_proceeds sentinelCb bin6 (by decide)

/-- C3: in the structured view of the part_000 `savetomapjson`, sub-buffer A
(24 bytes) is present iff flags4 bit 0 is set; sub-buffer B (20 bytes) is
present iff A is present and the byte of A at relative offset 20 has bit 0
set; sub-buffer C (44 bytes) is present iff flags4 bit 1 is set; sub-buffer D
(17 bytes) is present iff flags2 bit 6 (mask 0x40) is set; and when present
they are sliced in the order A, B, C, D at the cumulative offsets, the record
length being 55 plus the sum of the present sub-buffer lengths. -/
theorem c3_subbuffers (bin : List Nat) (w i m : Nat) :
    ((decodeTileV2 bin w i m).buffer1.isSome ↔ readU8 bin (m + 51) &&& 1 ≠ 0) ∧
    ((decodeTileV2 bin w i m).buffer2.isSome ↔
      (readU8 bin (m + 51) &&& 1 ≠ 0 ∧ readU8 bin (m + 55 + 20) &&& 1 ≠ 0)) ∧
    ((decodeTileV2 bin w i m).buffer3.isSome ↔ readU8 bin (m + 51) &&& 2 ≠ 0) ∧
    ((decodeTileV2 bin w i m).buffer4.isSome ↔ readU8 bin (m + 49) &&& 64 ≠ 0) ∧
    (decodeTileV2 bin w i m).buffer1 =
      (if readU8 bin (m + 51) &&& 1 ≠ 0 then some ((bin.drop (m + 55)).take 24)
       else none) ∧
    (decodeTileV2 bin w i m).buffer2 =
      (if readU8 bin (m + 51) &&& 1 ≠ 0 ∧ readU8 bin (m + 55 + 20) &&& 1 ≠ 0 then
        some ((bin.drop (m + 55 + 24)).take 20)
       else none) ∧
    (decodeTileV2 bin w i m).buffer3 =
      (if readU8 bin (m + 51) &&& 2 ≠ 0 then
        some ((bin.drop (m + 55 + (if readU8 bin (m + 51) &&& 1 ≠ 0 then 24 else 0) +
          (if readU8 bin (m + 51) &&& 1 ≠ 0 ∧ readU8 bin (m + 55 + 20) &&& 1 ≠ 0 then
            20 else 0))).take 44)
       else none) ∧
    (decodeTileV2 bin w i m).buffer4 =
      (if readU8 bin (m + 49) &&& 64 ≠ 0 then
        some ((bin.drop (m + 55 + (if readU8 bin (m + 51) &&& 1 ≠ 0 then 24 else 0) +
          (if readU8 bin (m + 51) &&& 1 ≠ 0 ∧ readU8 bin (m + 55 + 20) &&& 1 ≠ 0 then
            20 else 0) +
          (if readU8 bin (m + 51) &&& 2 ≠ 0 then 44 else 0))).take 17)
       else none) ∧
    (decodeTileV2 bin w i m).tile_length =
      55 + (if readU8 bin (m + 51) &&& 1 ≠ 0 then 24 else 0) +
        (if readU8 bin (m + 51) &&& 1 ≠ 0 ∧ readU8 bin (m + 55 + 20) &&& 1 ≠ 0 then
          20 else 0) +
        (if readU8 bin (m + 51) &&& 2 ≠ 0 then 44 else 0) +
        (if readU8 bin (m + 49) &&& 64 ≠ 0 then 17 else 0) := by
  refine ⟨?_, ?_, ?_, ?_, ?_, ?_, ?_, ?_, ?_⟩
  · rw [decodeTileV2_buffer1]
    by_cases hA : readU8 bin (m + 51) &&& 1 ≠ 0
    · rw [if_pos hA]; exact iff_of_true rfl hA
    · rw [if_neg hA]; exact iff_of_false (by simp) hA
  · rw [decodeTileV2_buffer2, iteNested20]
    by_cases hAB : readU8 bin (m + 51) &&& 1 ≠ 0 ∧ readU8 bin (m + 55 + 20) &&& 1 ≠ 0
    · rw [if_pos hAB]; exact iff_of_true rfl hAB
    · rw [if_neg hAB]; exact iff_of_false (by simp) hAB
  · rw [decodeTileV2_buffer3]
    by_cases hC : readU8 bin (m + 51) &&& 2 ≠ 0
    · rw [if_pos hC]; exact iff_of_true rfl hC
    · rw [if_neg hC]; exact iff_of_false (by simp) hC
  · rw [decodeTileV2_buffer4]
    by_cases hD : readU8 bin (m + 49) &&& 64 ≠ 0
    · rw [if_pos hD]; exact iff_of_true rfl hD
    · rw [if_neg hD]; exact iff_of_false (by simp) hD
  · exact decodeTileV2_buffer1 bin w i m
  · rw [decodeTileV2_buffer2, iteNested20]
  · rw [decodeTileV2_buffer3, v2_m3]
  · rw [decodeTileV2_buffer4, v2_m4]
  · rw [decodeTileV2_tile_length, v2_len]

/-- C9: the container returned by `recompress` leaves every byte before the
located zlib-start marker and every byte from 4 past the last sync-flush
marker unchanged: it is exactly the original prefix, the new framed stream,
and the original suffix. -/
theorem c9_outside_preserved (deflate : List Nat → List Nat) (civ B : List Nat)
    (s e : Nat)
    (hs : jsIndexOf civ zlibStart (jsLastIndexOf civ modTitle) = (s : Int))
    (he : jsLastIndexOf civ syncMark = (e : Int)) :
    (recompress deflate civ B).take s = civ.take s ∧
    (recompress deflate civ B).drop (s + (frame (deflate B)).length) =
      civ.drop (e + 4) := by
  have hs2 : s + 2 ≤ civ.length := by
    have hb := matchB_bound (jsIndexOf_eq_coe hs) (by simp [zlibStart])
    simpa [zlibStart] using hb
  have he2 : e + 4 ≤ civ.length := by
    have hb := matchB_bound (jsLastIndexOf_eq_coe he) (by simp [syncMark])
    simpa [syncMark] using hb
  have hrec : recompress deflate civ B =
      civ.take s ++ frame (deflate B) ++ civ.drop (e + 4) := by
    simp only [recompress]
    rw [hs, he]
    have h0 : jsSlice civ 0 (s : Int) = civ.take s := by
      have h0a := jsSlice_coe civ 0 s
      simpa using h0a
    have h1 : jsSliceFrom civ ((e : Int) + 4) = civ.drop (e + 4) := by
      unfold jsSliceFrom
      have h2 : ((e : Int) + 4) = ((e + 4 : Nat) : Int) := by push_cast; ring
      rw [h2, jsSlice_coe, List.take_length]
    rw [h0, h1]
  have hA : (civ.take s).length = s := by rw [List.length_take]; omega
  constructor
  · rw [hrec, List.append_assoc, List.take_append_eq_append_take, hA, Nat.sub_self,
      List.take_zero, List.append_nil]
    exact List.take_of_length_le (by rw [hA])
  · rw [hrec, List.append_assoc, List.drop_append_eq_append_drop, hA]
    have e1 : (civ.take s).drop (s + (frame (deflate B)).length) = [] :=
      List.drop_eq_nil_of_le (by rw [hA]; omega)
    rw [e1, List.nil_append]
    have e2 : s + (frame (deflate B)).length - s = (frame (deflate B)).length := by
      omega
    rw [e2, List.drop_append_eq_append_drop, List.drop_length, Nat.sub_self,
      List.drop_zero, List.nil_append]

/-- Witness for C9 at the concrete 16-byte container with boundaries 9 and 12. -/
theorem c9_witness :
    (recompress toyDeflate civ16 [5]).take 9 = civ16.take 9 ∧
    (recompress toyDeflate civ16 [5]).drop (9 + (frame (toyDeflate [5])).length) =
      civ16.drop (12 + 4) :=
  c9_outside_preserved toyDeflate civ16 [5] 9 12 (by decide) (by decide)

/-- Counterexample for C5: on a 4-byte input without the MOD_TITLE marker,
`decompress` (with the sync-flush-tolerant toy inflate) returns the empty
blob instead of failing. -/
theorem c5_counterexample :
    jsLastIndexOf civ5c modTitle = -1 ∧ decompress toyInflate civ5c = some [] := by
  decide

/-- C5 (amended): marker absence is not detected.  For every input without an
occurrence of MOD_TITLE, both marker searches yield -1, the sliced compressed
span is empty, and `decompress` returns whatever the inflator yields on the
empty stream (the empty blob for a sync-flush-tolerant inflator), rather than
signalling a marker error. -/
theorem c5_no_marker_behavior (inflate : List Nat → Option (List Nat))
    (civ : List Nat) (h : ∀ i < civ.length + 1, matchB civ modTitle i = false) :
    decompress inflate civ = inflate [] := by
  have hmod : jsLastIndexOf civ modTitle = -1 := jsLastIndexOf_none h
  have hstart : jsIndexOf civ zlibStart (-1) = -1 := by
    unfold jsIndexOf
    have hnone : idxFrom civ zlibStart (startPos civ.length (-1)) = none := by
      unfold idxFrom
      apply List.find?_eq_none.mpr
      intro i hi
      rw [List.mem_range] at hi
      by_cases hm : matchB civ zlibStart i = true
      · have hb := matchB_bound hm (by simp [zlibStart])
        simp only [zlibStart, List.length_cons, List.length_nil] at hb
        have hsv : startPos civ.length (-1) = civ.length - 1 := by
          unfold startPos
          rw [if_pos (by norm_num)]
          omega
        simp only [Bool.and_eq_true, decide_eq_true_eq, not_and]
        intro hle
        rw [hsv] at hle
        exact absurd hm (by omega)
      · simp [hm]
    rw [hnone]
  simp only [decompress]
  rw [hmod, hstart]
  have hdata : jsSlice civ (-1) (jsLastIndexOf civ syncMark) = [] := by
    rcases jsLastIndexOf_cases civ syncMark with hE | ⟨k, hE, hk⟩ <;> rw [hE]
    · exact jsSlice_neg_one civ (-1) (by omega)
    · have hb := matchB_bound hk (by simp [syncMark])
      simp only [syncMark, List.length_cons, List.length_nil] at hb
      exact jsSlice_neg_one civ (k : Int) (by omega)
  rw [hdata, dechunk_nil]

/-- Witness for C5 at a concrete marker-free input. -/
theorem c5_witness : decompress toyInflate civ5w = toyInflate [] :=
  c5_no_marker_behavior toyInflate civ5w (by decide)

/-- Counterexample for C7: the count 0 is not among the recognized map sizes,
yet `savetomapjson` returns an empty tile list instead of failing. -/
theorem c7_counterexample :
    mapsizedata (readI32 bin7z ((jsIndexOf bin7z tileMarker 0) + 12).toNat) = none ∧
    savetomapjsonBin bin7z = some [] := by decide

/-- C7 (amended): an unrecognized tile count makes `savetomapjson` fail only
when at least one record is decoded (the lookup result is consulted inside
the loop body); a count of 0 (or a negative count) produces an empty tile
list without failing.  For a recognized count the grid coordinates of record
i are `x = i mod rowWidth` and `y = i / rowWidth` (row width 60 for the
count 2280). -/
theorem c7_amended :
    (∀ bin : List Nat,
      mapsizedata (readI32 bin ((jsIndexOf bin tileMarker 0) + 12).toNat) = none →
      1 ≤ (readI32 bin ((jsIndexOf bin tileMarker 0) + 12).toNat).toNat →
      savetomapjsonBin bin = none) ∧
    (∀ (bin : List Nat) (w h n i m : Nat),
      xyView (stmLoop bin (some (w, h)) n i m) = some (xys w n i)) ∧
    mapsizedata 2280 = some (60, 38) := by
  refine ⟨?_, ?_, rfl⟩
  · intro bin hnone hge
    simp only [savetomapjsonBin]
    rw [hnone]
    obtain ⟨n, hn⟩ :
        ∃ n, (readI32 bin ((jsIndexOf bin tileMarker 0) + 12).toNat).toNat = n + 1 :=
      ⟨(readI32 bin ((jsIndexOf bin tileMarker 0) + 12).toNat).toNat - 1, by omega⟩
    rw [hn]
    simp [stmLoop]
  · intro bin w h n i m
    exact stmLoop_xy bin w h n i m

/-- Witness for C7: the unrecognized count 7 makes the decode fail, and the
coordinate view of a 2-wide table is as derived. -/
theorem c7_witness :
    savetomapjsonBin bin7u = none ∧
    xyView (stmLoop bin7g (some (2, 3)) 2 0 16) = some (xys 2 2 0) ∧
    mapsizedata 2280 = some (60, 38) :=
  ⟨c7_amended.1 bin7u (by decide) (by decide),
   c7_amended.2.1 bin7g 2 3 2 0 16,
   c7_amended.2.2⟩

/-- Counterexample for C1: a container whose markers are all located, spliced
with the blob MOD_TITLE by `recompress` (with a conforming toy codec), does
not decompress back to that blob: the copy of MOD_TITLE inside the compressed
span becomes the last anchor occurrence, the zlib-start search then fails,
and `decompress` returns the empty blob. -/
theorem c1_counterexample :
    jsIndexOf civC1 zlibStart (jsLastIndexOf civC1 modTitle) = 9 ∧
    jsLastIndexOf civC1 syncMark = 12 ∧
    toyInflate (toyDeflate modTitle) = some modTitle ∧
    decompress toyInflate (recompress toyDeflate civC1 modTitle) = some [] ∧
    some ([] : List Nat) ≠ some modTitle := by decide

/-- C1 (amended): the round trip `decompress (recompress container B) = B`
holds provided the boundary search of the new container still resolves to the
spliced stream (the zlib-start search returns the original splice point and
the last sync-flush marker of the whole file is the final 4 bytes of the
framed stream), the deflated stream is at least 4 bytes with its length
either a multiple of 64 KiB or at least 4 modulo 64 KiB (so the chunking does
not split the final marker), and the inflator inverts the deflated stream
with its trailing sync-flush marker removed. -/
theorem c1_roundtrip_amended (inflate : List Nat → Option (List Nat))
    (deflate : List Nat → List Nat) (civ B : List Nat) (s : Nat)
    (hs : jsIndexOf civ zlibStart (jsLastIndexOf civ modTitle) = (s : Int))
    (hlen : 4 ≤ (deflate B).length)
    (hal : (deflate B).length % 65536 = 0 ∨ 4 ≤ (deflate B).length % 65536)
    (hs2 : jsIndexOf (recompress deflate civ B) zlibStart
      (jsLastIndexOf (recompress deflate civ B) modTitle) = (s : Int))
    (he2 : jsLastIndexOf (recompress deflate civ B) syncMark =
      ((s + (frame (deflate B)).length - 4 : Nat) : Int))
    (hinf : inflate ((deflate B).take ((deflate B).length - 4)) = some B) :
    decompress inflate (recompress deflate civ B) = some B := by
  have hsb : s + 2 ≤ civ.length := by
    have hb := matchB_bound (jsIndexOf_eq_coe hs) (by simp [zlibStart])
    simpa [zlibStart] using hb
  have hF4 : 4 ≤ (frame (deflate B)).length := frame_length_ge hlen
  have hrec : recompress deflate civ B =
      civ.take s ++ frame (deflate B) ++
        jsSliceFrom civ (jsLastIndexOf civ syncMark + 4) := by
    simp only [recompress]
    rw [hs]
    have h0 : jsSlice civ 0 (s : Int) = civ.take s := by
      have h0a := jsSlice_coe civ 0 s
      simpa using h0a
    rw [h0]
  have hA : (civ.take s).length = s := by rw [List.length_take]; omega
  simp only [decompress]
  rw [hs2, he2]
  have hdata : jsSlice (recompress deflate civ B) (s : Int)
      ((s + (frame (deflate B)).length - 4 : Nat) : Int) =
      (frame (deflate B)).take ((frame (deflate B)).length - 4) := by
    rw [jsSlice_coe, hrec, List.append_assoc, List.take_append_eq_append_take, hA]
    have e1 : (civ.take s).take (s + (frame (deflate B)).length - 4) = civ.take s :=
      List.take_of_length_le (by rw [hA]; omega)
    rw [e1, List.drop_append_eq_append_drop, hA]
    have e2 : (civ.take s).drop s = [] := List.drop_eq_nil_of_le (by rw [hA])
    rw [e2, List.nil_append, Nat.sub_self, List.drop_zero]
    have e3 : s + (frame (deflate B)).length - 4 - s =
        (frame (deflate B)).length - 4 := by omega
    rw [e3, List.take_append_eq_append_take]
    rw [show (frame (deflate B)).length - 4 - (frame (deflate B)).length = 0 by omega,
      List.take_zero, List.append_nil]
  rw [hdata, dechunk_frame_take (deflate B) hlen hal]
  exact hinf

/-- Witness for C1 at the concrete 16-byte container and the blob [5] with
the toy codec. -/
theorem c1_roundtrip_witness :
    decompress toyInflate (recompress toyDeflate civ16 [5]) = some [5] :=
  c1_roundtrip_amended toyInflate toyDeflate civ16 [5] 9 (by decide) (by decide)
    (by decide) (by decide) (by decide) (by decide)

